import Mathlib

/-!
Shallow embedding of the fleet-membership and connection-management core of
the `fyp_cluster` repository: the controller's registry of pending and
registered workers (`src/controller/controller.py`), the controller-side
WebSocket connection manager (`src/controller/workers_websocket_manager.py`),
and the worker-side command dispatcher (`src/worker/websocket_server.py`).

Python dictionaries are modelled as insertion-ordered association lists;
raised exceptions are modelled with `Except` or explicit error components;
the cooperative-scheduler procedures of the connection manager are modelled
as the traces of externally visible events they emit (status publications,
connect attempts, sleeps, task scheduling).
-/

namespace FypCluster

/-! ### Insertion-ordered dictionaries (Python `dict` semantics) -/

/-- Lookup of a key in an insertion-ordered association list (`d[k]` read /
`k in d`). -/
def dlookup {K V : Type} [DecidableEq K] : List (K × V) → K → Option V
  | [], _ => none
  | (k, v) :: rest, key => if k = key then some v else dlookup rest key

/-- Python `d[key] = val`: replace the value at an existing key in place,
otherwise append the new binding at the end (dicts preserve insertion
order). -/
def dinsert {K V : Type} [DecidableEq K] : List (K × V) → K → V → List (K × V)
  | [], key, val => [(key, val)]
  | (k, v) :: rest, key, val =>
      if k = key then (key, val) :: rest else (k, v) :: dinsert rest key val

/-- Python `del d[key]`: remove the binding at `key` (the first one, which is
the only one for a well-formed dict). -/
def derase {K V : Type} [DecidableEq K] : List (K × V) → K → List (K × V)
  | [], _ => []
  | (k, v) :: rest, key => if k = key then rest else (k, v) :: derase rest key

/-! ### Data model (`src/common/model.py`) -/

/-- `ConnectionType` enum. -/
inductive ConnectionType
  | ETHERNET
  | WIFI
  | INVALID
deriving DecidableEq, Repr

/-- `WorkerStatus` enum. -/
inductive WorkerStatus
  | PENDING_REGISTRATION
  | REGISTERED
  | ACTIVE
  | RECONNECTING
  | INACTIVE
deriving DecidableEq, Repr

/-- `WorkerHeartbeat` pydantic model. -/
structure WorkerHeartbeat where
  worker_id : Int
  serial : String
  hardware_identifier : String
  control_ip_address : String
  data_connectivity : Bool
  data_plane : ConnectionType
  data_ip_address : String
  timestamp : Int
deriving DecidableEq, Repr

/-- `WorkerRegistration` pydantic model (it has no `worker_id` field; the
extra keyword argument passed at construction is ignored by pydantic, the
id lives only as the key of `registered_workers`). -/
structure WorkerRegistration where
  serial : String
  hardware_identifier : String
  control_ip : String
  data_ip : String
  data_plane : ConnectionType
  timestamp : Int
  status : WorkerStatus
deriving DecidableEq, Repr

/-! ### Controller registry state (`src/controller/controller.py` globals) -/

/-- The controller's mutable module-level registry: `pending_workers`
(keyed by hardware serial), `registered_workers` (keyed by worker id) and
the monotonically increasing `worker_id_counter`. -/
structure ControllerState where
  pending_workers : List (String × WorkerHeartbeat)
  registered_workers : List (Int × WorkerRegistration)
  worker_id_counter : Int
deriving DecidableEq, Repr

/-- Start-up state: both maps empty, counter `0`. -/
def initialState : ControllerState :=
  { pending_workers := [], registered_workers := [], worker_id_counter := 0 }

/-- `timeout_threshold = 15` seconds (controller.py line 19). -/
def timeout_threshold : Int := 15

/-- `receive_heartbeat` (controller.py lines 45-70).  `now` stands for
`int(time.time())`.  A heartbeat with `worker_id == -1` upserts the pending
map; on a brand-new pending serial the handler additionally scans
`registered_workers` and deletes the first registration carrying the same
serial (then `break`s).  A heartbeat with any other `worker_id` evaluates
`registered_workers[heartbeat.worker_id]` unconditionally, which raises
`KeyError` when the id is not registered. -/
def receive_heartbeat (st : ControllerState) (hb : WorkerHeartbeat) (now : Int) :
    Except String ControllerState :=
  if hb.worker_id = -1 then
    match dlookup st.pending_workers hb.serial with
    | some old =>
        Except.ok { st with
          pending_workers :=
            dinsert st.pending_workers hb.serial { old with timestamp := now } }
    | none =>
        let pend := st.pending_workers ++ [(hb.serial, { hb with timestamp := now })]
        match st.registered_workers.find? (fun q => q.2.serial = hb.serial) with
        | some e =>
            Except.ok { st with
              pending_workers := pend
              registered_workers := derase st.registered_workers e.1 }
        | none => Except.ok { st with pending_workers := pend }
  else
    match dlookup st.registered_workers hb.worker_id with
    | some reg =>
        Except.ok { st with
          registered_workers :=
            dinsert st.registered_workers hb.worker_id { reg with timestamp := now } }
    | none => Except.error "KeyError"

/-- Result of `register_worker`: the updated global state, the returned
boolean, and the `WorkerRegistration` object the function built (if it got
that far), with the final value of its `status` field. -/
structure RegisterResult where
  state : ControllerState
  success : Bool
  registration : Option WorkerRegistration
deriving DecidableEq, Repr

/-- `register_worker` (controller.py lines 124-167).  `ws_status` stands for
the awaited result of `workers_ws_manager.connect_to_worker(worker)`.
On unknown serial it returns `False` and changes nothing.  Otherwise it
assigns `worker_id_counter` (post-incrementing it) when the `worker_id`
argument is negative, builds a `WorkerRegistration` with
`status = WorkerStatus.ACTIVE`, and only when the WebSocket connection
succeeded stores it in `registered_workers` and deletes the pending entry;
on connection failure the record's status is set to `RECONNECTING` but the
record is discarded and `False` is returned (the status-change callback
fired inside `connect_to_worker` runs before the registration is stored, so
it hits the unknown-id branch and has no registry effect). -/
def register_worker (st : ControllerState) (hb : WorkerHeartbeat)
    (worker_id : Int) (ws_status : Bool) (now : Int) : RegisterResult :=
  match dlookup st.pending_workers hb.serial with
  | none => ⟨st, false, none⟩
  | some _ =>
      let wid := if worker_id < 0 then st.worker_id_counter else worker_id
      let counterNext :=
        if worker_id < 0 then st.worker_id_counter + 1 else st.worker_id_counter
      let registration : WorkerRegistration :=
        { serial := hb.serial
          hardware_identifier := hb.hardware_identifier
          control_ip := hb.control_ip_address
          data_ip := hb.data_ip_address
          data_plane := hb.data_plane
          timestamp := now
          status := WorkerStatus.ACTIVE }
      if ws_status then
        ⟨{ pending_workers := derase st.pending_workers hb.serial
           registered_workers := dinsert st.registered_workers wid registration
           worker_id_counter := counterNext }, true, some registration⟩
      else
        ⟨{ st with worker_id_counter := counterNext }, false,
          some { registration with status := WorkerStatus.RECONNECTING }⟩

/-- `on_worker_status_change` (controller.py lines 169-174): the status
change callback registered on the WebSocket manager; updates the status of
a known worker id and is a logged no-op for an unknown one. -/
def on_worker_status_change (st : ControllerState) (worker_id : Int)
    (status : WorkerStatus) : ControllerState :=
  match dlookup st.registered_workers worker_id with
  | some reg =>
      { st with registered_workers :=
          dinsert st.registered_workers worker_id { reg with status := status } }
  | none => st

/-! ### Connection manager (`src/controller/workers_websocket_manager.py`)

The manager's coroutines are modelled by the traces of externally visible
events they emit, in program order: status publications through
`_notify_status_change`, WebSocket connect attempts, `asyncio.sleep` delays
and `asyncio.create_task(self._reconnect_worker(...))` scheduling.  Socket
close and receive-task cancellation have no registry-visible effect and are
not traced. -/

/-- An externally visible action of a `WorkersWebSocketManager` coroutine. -/
inductive WSEvent
  | publish (worker_id : Int) (status : WorkerStatus)
  | connectAttempt (worker_id : Int)
  | sleep (seconds : Nat)
  | scheduleReconnect (worker_id : Int)
deriving DecidableEq, Repr

/-- `self.max_reconnect_attempts = 5` (workers_websocket_manager.py line 24). -/
def max_reconnect_attempts : Nat := 5

/-- `self.reconnect_interval = 5.0` seconds (workers_websocket_manager.py
line 23). -/
def reconnect_interval : Nat := 5

/-- `connect_to_worker` (workers_websocket_manager.py lines 27-43).
`succeeds` stands for the awaited `websockets` connect finishing within the
timeout.  Success stores the handle, starts the receive loop, publishes
`ACTIVE` and returns `True`; `asyncio.TimeoutError` or `WebSocketException`
is caught, nothing is published and `False` is returned. -/
def connect_to_worker (worker_id : Int) (succeeds : Bool) : List WSEvent × Bool :=
  if succeeds then
    ([WSEvent.connectAttempt worker_id,
      WSEvent.publish worker_id WorkerStatus.ACTIVE], true)
  else
    ([WSEvent.connectAttempt worker_id], false)

/-- `_handle_disconnection` (workers_websocket_manager.py lines 55-78).
It publishes `INACTIVE`, closes the socket and cancels the receive task if
present, publishes `INACTIVE` a second time when `reconnect` is false, and
then — regardless of the `reconnect` argument — tests only
`self.max_reconnect_attempts > 0`: if so it publishes `RECONNECTING` and
schedules a `_reconnect_worker` task, otherwise it publishes `INACTIVE`. -/
def handle_disconnection (worker_id : Int) (reconnect : Bool)
    (maxAttempts : Nat) : List WSEvent :=
  [WSEvent.publish worker_id WorkerStatus.INACTIVE]
    ++ (if reconnect then [] else [WSEvent.publish worker_id WorkerStatus.INACTIVE])
    ++ (if maxAttempts > 0 then
          [WSEvent.publish worker_id WorkerStatus.RECONNECTING,
           WSEvent.scheduleReconnect worker_id]
        else [WSEvent.publish worker_id WorkerStatus.INACTIVE])

/-- The `while attempts < self.max_reconnect_attempts` loop of
`_reconnect_worker` (workers_websocket_manager.py lines 84-94), with
`oracle i` the outcome of the `i`-th connect attempt: each attempt runs
`connect_to_worker`; on success the coroutine returns at once; on failure
it sleeps `reconnect_interval` and retries; when the bound is exhausted it
publishes `INACTIVE`.  `idx` is the absolute attempt index, `remaining` the
number of attempts the bound still allows. -/
def reconnect_attempts (oracle : Nat → Bool) (worker_id : Int) :
    Nat → Nat → List WSEvent
  | _, 0 => [WSEvent.publish worker_id WorkerStatus.INACTIVE]
  | idx, remaining + 1 =>
      (connect_to_worker worker_id (oracle idx)).1
        ++ (if oracle idx then []
            else WSEvent.sleep reconnect_interval ::
              reconnect_attempts oracle worker_id (idx + 1) remaining)

/-- `_reconnect_worker` (workers_websocket_manager.py lines 83-94). -/
def reconnect_worker (oracle : Nat → Bool) (worker_id : Int)
    (maxAttempts : Nat) : List WSEvent :=
  reconnect_attempts oracle worker_id 0 maxAttempts

/-- A disconnection with reconnection allowed followed by the retry task it
scheduled: the trace of `_handle_disconnection(worker, reconnect=True)`
and, when a `_reconnect_worker` task was scheduled, the trace of that
task. -/
def disconnect_with_retry (oracle : Nat → Bool) (worker_id : Int)
    (maxAttempts : Nat) : List WSEvent :=
  handle_disconnection worker_id true maxAttempts
    ++ (if maxAttempts > 0 then reconnect_worker oracle worker_id maxAttempts else [])

/-- Number of connect attempts recorded in a trace. -/
def countAttempts (trace : List WSEvent) : Nat :=
  trace.countP (fun e =>
    match e with
    | WSEvent.connectAttempt _ => true
    | _ => false)

/-! ### Liveness monitor (`controller.py`, `monitor_worker_timestamp`) -/

/-- Replay the status publications of a trace through the registered
`on_worker_status_change` callback (`_notify_status_change` invokes each
callback and swallows its exceptions; the only registered callback is
`on_worker_status_change`).  Scheduled `_reconnect_worker` tasks spawned by
the monitor's stale branch receive a plain `int` as `worker`, so their
first `connect_to_worker` call dies on `worker.control_ip`
(`AttributeError`) before reaching its `try` block and they never publish
anything; scheduling events are therefore ignored here. -/
def apply_ws_events (st : ControllerState) : List WSEvent → ControllerState
  | [] => st
  | WSEvent.publish wid s :: rest =>
      apply_ws_events (on_worker_status_change st wid s) rest
  | _ :: rest => apply_ws_events st rest

/-- First pending serial whose heartbeat timestamp is below the staleness
threshold, in dict insertion order. -/
def findFirstStaleKey (pend : List (String × WorkerHeartbeat))
    (threshold : Int) : Option String :=
  (pend.find? (fun p => p.2.timestamp < threshold)).map Prod.fst

/-- One iteration of the registered-workers loop of
`monitor_worker_timestamp` (controller.py lines 192-214) for the worker id
`wid`: a stale registration is set `INACTIVE` and
`_handle_disconnection(worker_id, reconnect=False)` is awaited inside a
`try` (its registry effect is the replay of the statuses it publishes); a
non-stale registration currently `INACTIVE` gets a single direct
`connect_to_worker` attempt, whose outcome is `connectOk wid`. -/
def monitor_registered_step (connectOk : Int → Bool) (threshold : Int)
    (st : ControllerState) (wid : Int) : ControllerState :=
  match dlookup st.registered_workers wid with
  | none => st
  | some reg =>
      if reg.timestamp < threshold then
        let regs1 :=
          dinsert st.registered_workers wid { reg with status := WorkerStatus.INACTIVE }
        let st1 := { st with registered_workers := regs1 }
        apply_ws_events st1 (handle_disconnection wid false max_reconnect_attempts)
      else if reg.status = WorkerStatus.INACTIVE then
        apply_ws_events st (connect_to_worker wid (connectOk wid)).1
      else st

/-- Outcome of one pass of the monitor loop: the registry state after the
pass and the exception that escaped it, if any. -/
structure MonitorResult where
  state : ControllerState
  error : Option String
deriving DecidableEq, Repr

/-- One pass of the `while True` body of `monitor_worker_timestamp`
(controller.py lines 186-214).  The pending loop deletes a stale entry
while iterating `pending_workers.items()`; CPython's dict iterator then
raises `RuntimeError("dictionary changed size during iteration")` on its
very next step (the size check precedes the exhaustion check), so when any
stale pending entry exists the pass removes the first such entry and the
uncaught `RuntimeError` aborts the pass — the remaining pending entries and
the whole registered loop are never processed, and the exception kills the
monitor task.  With no stale pending entry the registered loop runs
`monitor_registered_step` over the ids in insertion order (the per-worker
`_handle_disconnection` and `connect_to_worker` calls are individually
wrapped in `try`). -/
def monitor_pass (connectOk : Int → Bool) (st : ControllerState) (now : Int) :
    MonitorResult :=
  let threshold := now - timeout_threshold
  match findFirstStaleKey st.pending_workers threshold with
  | some s =>
      ⟨{ st with pending_workers := derase st.pending_workers s },
        some "RuntimeError: dictionary changed size during iteration"⟩
  | none =>
      ⟨(st.registered_workers.map Prod.fst).foldl
          (monitor_registered_step connectOk threshold) st, none⟩

/-! ### Worker-side command dispatcher (`src/worker/websocket_server.py`) -/

/-- A frame delivered to `handle_connection`'s receive loop, abstracted at
the point the loop inspects it: `malformed` stands for a text whose
`json.loads` raises `JSONDecodeError`; `withCommand cmd` for a parsed
envelope whose `payload.get("command", "")` is `cmd` (an absent field
yields the empty string). -/
inductive InboundMsg
  | malformed
  | withCommand (command : String)
deriving DecidableEq, Repr

/-- How the receive loop of `handle_connection` ended. -/
inductive LoopExit
  | connectionLost
  | handlerException (command : String)
deriving DecidableEq, Repr

/-- The `while True` receive loop of `handle_connection`
(websocket_server.py lines 22-45).  `handlers` is the
`command_handlers` table, each command mapped to whether its handler raises
when invoked.  The inner `try` catches only `json.JSONDecodeError`, so a
malformed frame, an empty command and an unregistered command each log and
continue, while an exception propagating out of an invoked handler escapes
to the outer `except Exception` and ends the loop.  Exhausting `msgs`
stands for `receive_text` raising `WebSocketDisconnect` (connection loss).
Returns how the loop exited together with the frames it never consumed. -/
def dispatch_loop (handlers : List (String × Bool)) :
    List InboundMsg → LoopExit × List InboundMsg
  | [] => (LoopExit.connectionLost, [])
  | msg :: rest =>
      match msg with
      | InboundMsg.malformed => dispatch_loop handlers rest
      | InboundMsg.withCommand cmd =>
          if cmd = "" then dispatch_loop handlers rest
          else
            match dlookup handlers cmd with
            | none => dispatch_loop handlers rest
            | some raises =>
                if raises then (LoopExit.handlerException cmd, rest)
                else dispatch_loop handlers rest

/-- Result of one `handle_connection` invocation: how its loop exited,
the frames left unconsumed, the value of `self.current_websocket` after the
`finally` block, and whether `websocket.close()` was awaited. -/
structure HandleConnectionResult where
  exit : LoopExit
  unprocessed : List InboundMsg
  slot_after : Option Nat
  connection_closed : Bool
deriving DecidableEq, Repr

/-- `handle_connection` (websocket_server.py lines 17-50): accept, store the
connection in the single slot, run the receive loop; whichever way the loop
ends (`WebSocketDisconnect` or any other exception, both caught), the
`finally` block sets `self.current_websocket = None` — without comparing it
to the terminating connection — and closes the websocket. -/
def handle_connection (handlers : List (String × Bool)) (msgs : List InboundMsg) :
    HandleConnectionResult :=
  let r := dispatch_loop handlers msgs
  ⟨r.1, r.2, none, true⟩

/-- The single-slot holder `self.current_websocket`, as acted on by
`handle_connection`: entry (line 19) stores the new connection, termination
(line 47, in `finally`) stores `None` unconditionally. -/
inductive SlotOp
  | start (conn : Nat)
  | finish (conn : Nat)
deriving DecidableEq, Repr

/-- Effect of one `handle_connection` lifecycle event on
`self.current_websocket`: `start c` is line 19 (`= websocket`), `finish c`
is line 47 (`= None`, ignoring both its argument and the current slot
contents). -/
def slot_step (_slot : Option Nat) : SlotOp → Option Nat
  | SlotOp.start c => some c
  | SlotOp.finish _ => none

/-- Replay a sequence of connection lifecycle events over the slot. -/
def slot_run (slot : Option Nat) (ops : List SlotOp) : Option Nat :=
  ops.foldl slot_step slot

/-! ### Concrete fixtures for the evaluated statements -/

/-- A fresh unassigned heartbeat for serial `"ABC123"`. -/
def hbA : WorkerHeartbeat :=
  { worker_id := -1, serial := "ABC123", hardware_identifier := "Swift-Panda",
    control_ip_address := "10.0.0.2", data_connectivity := true,
    data_plane := ConnectionType.ETHERNET, data_ip_address := "10.1.0.2",
    timestamp := 50 }

/-- Registry holding exactly the pending entry for `hbA`. -/
def st1 : ControllerState :=
  { pending_workers := [("ABC123", hbA)], registered_workers := [],
    worker_id_counter := 0 }

/-- A registration for serial `"S777"` under worker id `0`. -/
def regS : WorkerRegistration :=
  { serial := "S777", hardware_identifier := "Brave-Tiger",
    control_ip := "10.0.0.3", data_ip := "10.1.0.3",
    data_plane := ConnectionType.ETHERNET, timestamp := 90,
    status := WorkerStatus.ACTIVE }

/-- An unassigned heartbeat re-announcing the already-registered serial
`"S777"`. -/
def hbS : WorkerHeartbeat :=
  { worker_id := -1, serial := "S777", hardware_identifier := "Brave-Tiger",
    control_ip_address := "10.0.0.3", data_connectivity := true,
    data_plane := ConnectionType.ETHERNET, data_ip_address := "10.1.0.3",
    timestamp := 95 }

/-- Registry holding only the registration `regS` (serial `"S777"`, id `0`),
with nothing pending. -/
def stR : ControllerState :=
  { pending_workers := [], registered_workers := [(0, regS)],
    worker_id_counter := 1 }

/-- A heartbeat claiming the assigned worker id `5`, which is registered
nowhere. -/
def hbU : WorkerHeartbeat :=
  { worker_id := 5, serial := "XYZ999", hardware_identifier := "Calm-Eagle",
    control_ip_address := "10.0.0.9", data_connectivity := true,
    data_plane := ConnectionType.WIFI, data_ip_address := "10.1.0.9",
    timestamp := 70 }

/-- Stale pending heartbeat (serial `"A111"`, last seen at `10`). -/
def hbStaleA : WorkerHeartbeat :=
  { worker_id := -1, serial := "A111", hardware_identifier := "Wise-Whale",
    control_ip_address := "10.0.0.4", data_connectivity := true,
    data_plane := ConnectionType.ETHERNET, data_ip_address := "10.1.0.4",
    timestamp := 10 }

/-- Stale pending heartbeat (serial `"B222"`, last seen at `12`). -/
def hbStaleB : WorkerHeartbeat :=
  { worker_id := -1, serial := "B222", hardware_identifier := "Quick-Bear",
    control_ip_address := "10.0.0.5", data_connectivity := true,
    data_plane := ConnectionType.ETHERNET, data_ip_address := "10.1.0.5",
    timestamp := 12 }

/-- Stale registration (serial `"R333"`, id `0`, last seen at `5`, still
marked `ACTIVE`). -/
def regStale : WorkerRegistration :=
  { serial := "R333", hardware_identifier := "Bold-Wolf",
    control_ip := "10.0.0.6", data_ip := "10.1.0.6",
    data_plane := ConnectionType.ETHERNET, timestamp := 5,
    status := WorkerStatus.ACTIVE }

/-- Registry with two stale pending entries and one stale registration:
input of a monitor pass at `now = 100` (staleness threshold `85`). -/
def stM : ControllerState :=
  { pending_workers := [("A111", hbStaleA), ("B222", hbStaleB)],
    registered_workers := [(0, regStale)], worker_id_counter := 1 }

/-- The registry that `receive_heartbeat stR hbS 100` actually produces:
the serial is re-pended and its registration is deleted. -/
def stR_after : ControllerState :=
  { pending_workers := [("S777", { hbS with timestamp := 100 })],
    registered_workers := [], worker_id_counter := 1 }

/-! ### Reachability and the serial-disjointness invariant -/

/-- `s` occurs in the pending collection: as a key or as the `serial` field
of a stored heartbeat. -/
def pendingHasSerial (st : ControllerState) (s : String) : Prop :=
  ∃ p ∈ st.pending_workers, p.1 = s ∨ p.2.serial = s

/-- `s` is the `serial` field of some stored registration. -/
def registeredHasSerial (st : ControllerState) (s : String) : Prop :=
  ∃ q ∈ st.registered_workers, q.2.serial = s

/-- Registry states reachable from start-up by any sequence of the
operations that touch the registry: heartbeat ingest (successful calls),
promotions (with either connection outcome and either id argument),
monitor passes (their registry effect, whether or not the pass aborted)
and status-change callbacks. -/
inductive Reachable : ControllerState → Prop
  | init : Reachable initialState
  | heartbeat {st st' : ControllerState} (hb : WorkerHeartbeat) (now : Int) :
      Reachable st → receive_heartbeat st hb now = Except.ok st' → Reachable st'
  | register {st : ControllerState} (hb : WorkerHeartbeat) (worker_id : Int)
      (ws_status : Bool) (now : Int) :
      Reachable st → Reachable (register_worker st hb worker_id ws_status now).state
  | monitor {st : ControllerState} (connectOk : Int → Bool) (now : Int) :
      Reachable st → Reachable (monitor_pass connectOk st now).state
  | statusCallback {st : ControllerState} (worker_id : Int) (status : WorkerStatus) :
      Reachable st → Reachable (on_worker_status_change st worker_id status)

/-- Well-formedness of the registry, maintained by every operation: both
dicts have duplicate-free key lists, each pending entry is keyed by its own
serial, registered serials are pairwise distinct, and no registered serial
is also a pending key. -/
structure Wf (st : ControllerState) : Prop where
  pending_nodup : (st.pending_workers.map Prod.fst).Nodup
  registered_nodup : (st.registered_workers.map Prod.fst).Nodup
  pending_serial_eq_key : ∀ p ∈ st.pending_workers, p.2.serial = p.1
  registered_serials : st.registered_workers.Pairwise (fun a b => a.2.serial ≠ b.2.serial)
  disjoint : ∀ q ∈ st.registered_workers, ∀ p ∈ st.pending_workers, q.2.serial ≠ p.1

/-! ### Dictionary lemmas -/

theorem dlookup_mem {K V : Type} [DecidableEq K] {l : List (K × V)} {k : K} {v : V}
    (h : dlookup l k = some v) : (k, v) ∈ l := by
  induction l with
  | nil => simp [dlookup] at h
  | cons p rest ih =>
      obtain ⟨k0, v0⟩ := p
      by_cases hk : k0 = k
      · subst hk
        simp [dlookup] at h
        subst h
        exact List.mem_cons_self _ _
      · simp [dlookup, hk] at h
        exact List.mem_cons_of_mem _ (ih h)

theorem dlookup_eq_none_iff {K V : Type} [DecidableEq K] {l : List (K × V)} {k : K} :
    dlookup l k = none ↔ ∀ p ∈ l, p.1 ≠ k := by
  induction l with
  | nil => simp [dlookup]
  | cons p rest ih =>
      obtain ⟨k0, v0⟩ := p
      by_cases hk : k0 = k
      · subst hk
        simp [dlookup]
      · simp [dlookup, hk, ih]

theorem mem_dinsert {K V : Type} [DecidableEq K] {l : List (K × V)} {k : K} {v : V}
    {q : K × V} (h : q ∈ dinsert l k v) : q ∈ l ∨ q = (k, v) := by
  induction l with
  | nil => simp [dinsert] at h; exact Or.inr h
  | cons p rest ih =>
      obtain ⟨k0, v0⟩ := p
      by_cases hk : k0 = k
      · simp [dinsert, hk] at h
        rcases h with h | h
        · exact Or.inr (by simp [h])
        · exact Or.inl (List.mem_cons_of_mem _ h)
      · simp only [dinsert, if_neg hk, List.mem_cons] at h
        rcases h with h | h
        · exact Or.inl (by simp [h])
        · rcases ih h with h2 | h2
          · exact Or.inl (List.mem_cons_of_mem _ h2)
          · exact Or.inr h2

theorem keys_dinsert_of_some {K V : Type} [DecidableEq K] {l : List (K × V)} {k : K}
    {v : V} (h : (dlookup l k).isSome) :
    (dinsert l k v).map Prod.fst = l.map Prod.fst := by
  induction l with
  | nil => simp [dlookup] at h
  | cons p rest ih =>
      obtain ⟨k0, v0⟩ := p
      by_cases hk : k0 = k
      · subst hk
        simp [dinsert]
      · simp [dlookup, hk] at h
        simp [dinsert, hk, ih h]

theorem keys_dinsert_of_none {K V : Type} [DecidableEq K] {l : List (K × V)} {k : K}
    {v : V} (h : dlookup l k = none) :
    (dinsert l k v).map Prod.fst = l.map Prod.fst ++ [k] := by
  induction l with
  | nil => simp [dinsert]
  | cons p rest ih =>
      obtain ⟨k0, v0⟩ := p
      by_cases hk : k0 = k
      · subst hk; simp [dlookup] at h
      · simp [dlookup, hk] at h
        simp [dinsert, hk, ih h]

theorem dlookup_dinsert {K V : Type} [DecidableEq K] {l : List (K × V)} {k : K} {v : V} :
    dlookup (dinsert l k v) k = some v := by
  induction l with
  | nil => simp [dinsert, dlookup]
  | cons p rest ih =>
      obtain ⟨k0, v0⟩ := p
      by_cases hk : k0 = k
      · simp [dinsert, hk, dlookup]
      · simp [dinsert, hk, dlookup, ih]

theorem dlookup_dinsert_ne {K V : Type} [DecidableEq K] {l : List (K × V)} {k kx : K}
    {v : V} (h : kx ≠ k) : dlookup (dinsert l k v) kx = dlookup l kx := by
  have hkk : ¬(k = kx) := fun hh => h hh.symm
  induction l with
  | nil => simp [dinsert, dlookup, hkk]
  | cons p rest ih =>
      obtain ⟨k0, v0⟩ := p
      by_cases hk : k0 = k
      · subst hk
        simp only [dinsert, if_pos rfl, dlookup, if_neg hkk]
      · by_cases hx : k0 = kx
        · subst hx
          simp [dinsert, h, hkk, dlookup]
        · simp [dinsert, hk, dlookup, hx, ih]

theorem derase_sublist {K V : Type} [DecidableEq K] (l : List (K × V)) (k : K) :
    List.Sublist (derase l k) l := by
  induction l with
  | nil => simp [derase]
  | cons p rest ih =>
      obtain ⟨k0, v0⟩ := p
      by_cases hk : k0 = k
      · simp only [derase, if_pos hk]
        exact List.sublist_cons_self _ _
      · simp only [derase, if_neg hk]
        exact List.Sublist.cons₂ _ ih

theorem mem_derase {K V : Type} [DecidableEq K] {l : List (K × V)} {k : K} {q : K × V}
    (h : q ∈ derase l k) : q ∈ l :=
  (derase_sublist l k).mem h

theorem mem_derase_key_ne {K V : Type} [DecidableEq K] {l : List (K × V)}
    (hnd : (l.map Prod.fst).Nodup) {k : K} {q : K × V} (h : q ∈ derase l k) :
    q.1 ≠ k := by
  induction l with
  | nil => simp [derase] at h
  | cons p rest ih =>
      obtain ⟨k0, v0⟩ := p
      simp only [List.map_cons, List.nodup_cons] at hnd
      by_cases hk : k0 = k
      · subst hk
        simp only [derase, if_pos rfl] at h
        intro hq
        exact hnd.1 (hq ▸ List.mem_map_of_mem Prod.fst h)
      · simp only [derase, if_neg hk, List.mem_cons] at h
        rcases h with h | h
        · simpa [h] using hk
        · exact ih hnd.2 h

theorem dlookup_derase_self {K V : Type} [DecidableEq K] {l : List (K × V)}
    (hnd : (l.map Prod.fst).Nodup) (k : K) : dlookup (derase l k) k = none := by
  rw [dlookup_eq_none_iff]
  intro p hp
  exact mem_derase_key_ne hnd hp

theorem dlookup_append_single {K V : Type} [DecidableEq K] {l : List (K × V)} {k : K}
    {v : V} (h : dlookup l k = none) : dlookup (l ++ [(k, v)]) k = some v := by
  induction l with
  | nil => simp [dlookup]
  | cons p rest ih =>
      obtain ⟨k0, v0⟩ := p
      by_cases hk : k0 = k
      · subst hk; simp [dlookup] at h
      · simp [dlookup, hk] at h ⊢
        exact ih h

theorem pairwise_dinsert {K V : Type} [DecidableEq K]
    {R : K × V → K × V → Prop} {l : List (K × V)} {k : K} {v : V}
    (hnd : (l.map Prod.fst).Nodup) (hp : l.Pairwise R)
    (hk : ∀ q ∈ l, q.1 ≠ k → R (k, v) q ∧ R q (k, v)) :
    (dinsert l k v).Pairwise R := by
  induction l with
  | nil => simp [dinsert]
  | cons p rest ih =>
      obtain ⟨k0, v0⟩ := p
      simp only [List.map_cons, List.nodup_cons] at hnd
      rcases List.pairwise_cons.mp hp with ⟨hhead, htail⟩
      by_cases heq : k0 = k
      · subst heq
        simp only [dinsert, if_pos rfl]
        refine List.pairwise_cons.mpr ⟨?_, htail⟩
        intro q hq
        have hqk : q.1 ≠ k0 := by
          intro hfst
          exact hnd.1 (hfst ▸ List.mem_map_of_mem Prod.fst hq)
        exact (hk q (List.mem_cons_of_mem _ hq) hqk).1
      · simp only [dinsert, if_neg heq]
        refine List.pairwise_cons.mpr ⟨?_, ?_⟩
        · intro q hq
          rcases mem_dinsert hq with hq2 | hq2
          · exact hhead q hq2
          · subst hq2
            exact (hk (k0, v0) (List.mem_cons_self _ _) heq).2
        · exact ih hnd.2 htail
            (fun q hq hqk => hk q (List.mem_cons_of_mem _ hq) hqk)

theorem nodup_keys_dinsert {K V : Type} [DecidableEq K] {l : List (K × V)} {k : K}
    {v : V} (hnd : (l.map Prod.fst).Nodup) :
    ((dinsert l k v).map Prod.fst).Nodup := by
  cases hcase : dlookup l k with
  | some v0 => rw [keys_dinsert_of_some (by simp [hcase])]; exact hnd
  | none =>
      rw [keys_dinsert_of_none hcase]
      refine List.Nodup.append hnd (List.nodup_singleton k) ?_
      intro x hx hxs
      simp at hxs
      subst hxs
      rcases List.mem_map.mp hx with ⟨p, hp, hpk⟩
      exact (dlookup_eq_none_iff.mp hcase p hp) hpk

theorem pairwise_ne_unique {α β : Type} {f : α → β} {l : List α}
    (h : l.Pairwise (fun a b => f a ≠ f b)) {a b : α} (ha : a ∈ l) (hb : b ∈ l)
    (hf : f a = f b) : a = b := by
  induction l with
  | nil => simp at ha
  | cons x t ih =>
      rcases List.pairwise_cons.mp h with ⟨hx, ht⟩
      rcases List.mem_cons.mp ha with ha1 | ha1 <;>
        rcases List.mem_cons.mp hb with hb1 | hb1
      · rw [ha1, hb1]
      · exact absurd hf (ha1 ▸ hx b hb1)
      · exact absurd hf.symm (hb1 ▸ hx a ha1)
      · exact ih ht ha1 hb1

/-! ### Preservation of well-formedness -/

theorem wf_dinsert_same_serial {st : ControllerState} (h : Wf st) {wid : Int}
    {reg v : WorkerRegistration} (hl : dlookup st.registered_workers wid = some reg)
    (hser : v.serial = reg.serial) :
    Wf { st with registered_workers := dinsert st.registered_workers wid v } := by
  have hmem : (wid, reg) ∈ st.registered_workers := dlookup_mem hl
  refine ⟨h.pending_nodup, nodup_keys_dinsert h.registered_nodup,
    h.pending_serial_eq_key, ?_, ?_⟩
  · refine pairwise_dinsert h.registered_nodup h.registered_serials ?_
    intro q hq hqk
    have hqr : q.2.serial ≠ reg.serial := by
      intro hqs
      have heq := pairwise_ne_unique (f := fun p : Int × WorkerRegistration => p.2.serial)
        h.registered_serials hq hmem hqs
      exact hqk (by rw [heq])
    constructor
    · show v.serial ≠ q.2.serial
      rw [hser]
      exact fun hh => hqr hh.symm
    · show q.2.serial ≠ v.serial
      rw [hser]
      exact hqr
  · intro q hq p hp
    rcases mem_dinsert hq with hq2 | hq2
    · exact h.disjoint q hq2 p hp
    · subst hq2
      show v.serial ≠ p.1
      rw [hser]
      exact h.disjoint (wid, reg) hmem p hp

theorem wf_on_worker_status_change {st : ControllerState} (h : Wf st)
    {worker_id : Int} {status : WorkerStatus} :
    Wf (on_worker_status_change st worker_id status) := by
  unfold on_worker_status_change
  cases hl : dlookup st.registered_workers worker_id with
  | none => exact h
  | some reg =>
      exact wf_dinsert_same_serial (v := { reg with status := status }) h hl rfl

theorem wf_apply_ws_events {st : ControllerState} (h : Wf st)
    {evs : List WSEvent} : Wf (apply_ws_events st evs) := by
  induction evs generalizing st with
  | nil => exact h
  | cons ev rest ih =>
      cases ev with
      | publish wid s => exact ih (wf_on_worker_status_change h)
      | connectAttempt wid => exact ih h
      | sleep n => exact ih h
      | scheduleReconnect wid => exact ih h

theorem wf_monitor_registered_step {st : ControllerState} (h : Wf st)
    {connectOk : Int → Bool} {threshold : Int} {wid : Int} :
    Wf (monitor_registered_step connectOk threshold st wid) := by
  unfold monitor_registered_step
  cases hl : dlookup st.registered_workers wid with
  | none => exact h
  | some reg =>
      by_cases hstale : reg.timestamp < threshold
      · simp only [if_pos hstale]
        exact wf_apply_ws_events
          (wf_dinsert_same_serial (v := { reg with status := WorkerStatus.INACTIVE }) h hl rfl)
      · simp only [if_neg hstale]
        by_cases hinact : reg.status = WorkerStatus.INACTIVE
        · simp only [if_pos hinact]
          exact wf_apply_ws_events h
        · simp only [if_neg hinact]
          exact h

theorem wf_monitor_foldl {connectOk : Int → Bool} {threshold : Int} :
    ∀ (wids : List Int) (st : ControllerState), Wf st →
      Wf (wids.foldl (monitor_registered_step connectOk threshold) st)
  | [], _, h => h
  | _ :: rest, _, h =>
      wf_monitor_foldl rest _ (wf_monitor_registered_step h)

theorem wf_derase_pending {st : ControllerState} (h : Wf st) (s : String) :
    Wf { st with pending_workers := derase st.pending_workers s } := by
  refine ⟨?_, h.registered_nodup, ?_, h.registered_serials, ?_⟩
  · exact List.Nodup.sublist ((derase_sublist _ _).map Prod.fst) h.pending_nodup
  · intro p hp
    exact h.pending_serial_eq_key p (mem_derase hp)
  · intro q hq p hp
    exact h.disjoint q hq p (mem_derase hp)

theorem wf_monitor_pass {st : ControllerState} (h : Wf st)
    {connectOk : Int → Bool} {now : Int} :
    Wf (monitor_pass connectOk st now).state := by
  cases hf : findFirstStaleKey st.pending_workers (now - timeout_threshold) with
  | none =>
      have hst : (monitor_pass connectOk st now).state =
          (st.registered_workers.map Prod.fst).foldl
            (monitor_registered_step connectOk (now - timeout_threshold)) st := by
        simp [monitor_pass, hf]
      rw [hst]
      exact wf_monitor_foldl _ _ h
  | some s =>
      have hst : (monitor_pass connectOk st now).state =
          { st with pending_workers := derase st.pending_workers s } := by
        simp [monitor_pass, hf]
      rw [hst]
      exact wf_derase_pending h s

theorem wf_receive_heartbeat {st st' : ControllerState} {hb : WorkerHeartbeat}
    {now : Int} (h : Wf st) (hok : receive_heartbeat st hb now = Except.ok st') :
    Wf st' := by
  unfold receive_heartbeat at hok
  by_cases hwid : hb.worker_id = -1
  · rw [if_pos hwid] at hok
    cases hpl : dlookup st.pending_workers hb.serial with
    | some old =>
        rw [hpl] at hok
        injection hok with hok
        subst hok
        have hold : (hb.serial, old) ∈ st.pending_workers := dlookup_mem hpl
        have holds : old.serial = hb.serial := h.pending_serial_eq_key _ hold
        refine ⟨nodup_keys_dinsert h.pending_nodup, h.registered_nodup, ?_,
          h.registered_serials, ?_⟩
        · intro p hp
          rcases mem_dinsert hp with hp2 | hp2
          · exact h.pending_serial_eq_key p hp2
          · subst hp2
            exact holds
        · intro q hq p hp
          rcases mem_dinsert hp with hp2 | hp2
          · exact h.disjoint q hq p hp2
          · subst hp2
            exact h.disjoint q hq (hb.serial, old) hold
    | none =>
        rw [hpl] at hok
        have hs_not : hb.serial ∉ st.pending_workers.map Prod.fst := by
          intro hmem
          rcases List.mem_map.mp hmem with ⟨p, hp, hpk⟩
          exact dlookup_eq_none_iff.mp hpl p hp hpk
        have hpend_nodup :
            ((st.pending_workers ++ [(hb.serial, { hb with timestamp := now })]).map
              Prod.fst).Nodup := by
          rw [List.map_append]
          refine List.Nodup.append h.pending_nodup (List.nodup_singleton _) ?_
          intro x hx hxs
          simp at hxs
          subst hxs
          exact hs_not hx
        have hpend_serial :
            ∀ p ∈ st.pending_workers ++ [(hb.serial, { hb with timestamp := now })],
              p.2.serial = p.1 := by
          intro p hp
          rcases List.mem_append.mp hp with hp2 | hp2
          · exact h.pending_serial_eq_key p hp2
          · simp at hp2
            subst hp2
            rfl
        cases hfind : st.registered_workers.find? (fun q => q.2.serial = hb.serial) with
        | some e =>
            rw [hfind] at hok
            injection hok with hok
            subst hok
            have hemem : e ∈ st.registered_workers := List.mem_of_find?_eq_some hfind
            have heser : e.2.serial = hb.serial := by
              have hfs := List.find?_some hfind
              simpa using hfs
            refine ⟨hpend_nodup,
              List.Nodup.sublist ((derase_sublist _ _).map Prod.fst) h.registered_nodup,
              hpend_serial,
              List.Pairwise.sublist (derase_sublist _ _) h.registered_serials, ?_⟩
            intro q hq p hp
            rcases List.mem_append.mp hp with hp2 | hp2
            · exact h.disjoint q (mem_derase hq) p hp2
            · simp at hp2
              subst hp2
              show q.2.serial ≠ hb.serial
              intro hqs
              have heq := pairwise_ne_unique
                (f := fun p : Int × WorkerRegistration => p.2.serial)
                h.registered_serials (mem_derase hq) hemem (hqs.trans heser.symm)
              exact mem_derase_key_ne h.registered_nodup hq (by rw [heq])
        | none =>
            rw [hfind] at hok
            injection hok with hok
            subst hok
            have hnone : ∀ q ∈ st.registered_workers, q.2.serial ≠ hb.serial := by
              intro q hq
              have hfs := List.find?_eq_none.mp hfind q hq
              simpa using hfs
            refine ⟨hpend_nodup, h.registered_nodup, hpend_serial,
              h.registered_serials, ?_⟩
            intro q hq p hp
            rcases List.mem_append.mp hp with hp2 | hp2
            · exact h.disjoint q hq p hp2
            · simp at hp2
              subst hp2
              exact hnone q hq
  · rw [if_neg hwid] at hok
    cases hrl : dlookup st.registered_workers hb.worker_id with
    | some reg =>
        rw [hrl] at hok
        injection hok with hok
        subst hok
        exact wf_dinsert_same_serial (v := { reg with timestamp := now }) h hrl rfl
    | none =>
        rw [hrl] at hok
        exact absurd hok (by simp)

theorem wf_register_worker {st : ControllerState} (h : Wf st)
    {hb : WorkerHeartbeat} {worker_id : Int} {ws_status : Bool} {now : Int} :
    Wf (register_worker st hb worker_id ws_status now).state := by
  unfold register_worker
  cases hpl : dlookup st.pending_workers hb.serial with
  | none => exact h
  | some hbp =>
      have hpmem : (hb.serial, hbp) ∈ st.pending_workers := dlookup_mem hpl
      by_cases hws : ws_status
      · simp only [if_pos hws]
        refine ⟨?_, nodup_keys_dinsert h.registered_nodup, ?_, ?_, ?_⟩
        · exact List.Nodup.sublist ((derase_sublist _ _).map Prod.fst) h.pending_nodup
        · intro p hp
          exact h.pending_serial_eq_key p (mem_derase hp)
        · refine pairwise_dinsert h.registered_nodup h.registered_serials ?_
          intro q hq hqk
          have hqs : q.2.serial ≠ hb.serial := h.disjoint q hq _ hpmem
          exact ⟨fun hh => hqs hh.symm, hqs⟩
        · intro q hq p hp
          have hp1 : p.1 ≠ hb.serial := mem_derase_key_ne h.pending_nodup hp
          rcases mem_dinsert hq with hq2 | hq2
          · exact h.disjoint q hq2 p (mem_derase hp)
          · subst hq2
            exact fun hh => hp1 hh.symm
      · simp only [if_neg hws]
        exact ⟨h.pending_nodup, h.registered_nodup, h.pending_serial_eq_key,
          h.registered_serials, h.disjoint⟩

theorem reachable_wf {st : ControllerState} (h : Reachable st) : Wf st := by
  induction h with
  | init => refine ⟨?_, ?_, ?_, ?_, ?_⟩ <;> simp [initialState]
  | heartbeat hb now hr hok ih => exact wf_receive_heartbeat ih hok
  | register hb worker_id ws_status now hr ih => exact wf_register_worker ih
  | monitor connectOk now hr ih => exact wf_monitor_pass ih
  | statusCallback worker_id status hr ih => exact wf_on_worker_status_change ih

/-! ### Trace lemmas for the reconnection loop and the dispatcher loop -/

theorem countAttempts_append (a b : List WSEvent) :
    countAttempts (a ++ b) = countAttempts a + countAttempts b := by
  simp [countAttempts, List.countP_append]

theorem reconnect_attempts_all_fail (wid : Int) :
    ∀ (r idx : Nat),
      countAttempts (reconnect_attempts (fun _ => false) wid idx r) = r
      ∧ ∃ pre, reconnect_attempts (fun _ => false) wid idx r =
          pre ++ [WSEvent.publish wid WorkerStatus.INACTIVE]
  | 0, idx => by
      refine ⟨by simp [reconnect_attempts, countAttempts], [], by simp [reconnect_attempts]⟩
  | r + 1, idx => by
      obtain ⟨hc, pre, hpre⟩ := reconnect_attempts_all_fail wid r (idx + 1)
      constructor
      · simp [reconnect_attempts, connect_to_worker, countAttempts,
          List.countP_cons, List.countP_append] at hc ⊢
        omega
      · refine ⟨WSEvent.connectAttempt wid :: WSEvent.sleep reconnect_interval :: pre, ?_⟩
        simp [reconnect_attempts, connect_to_worker, hpre]

theorem reconnect_attempts_first_success (oracle : Nat → Bool) (wid : Int) :
    ∀ (r idx k : Nat), idx ≤ k → k < idx + r → oracle k = true →
      (∀ j, idx ≤ j → j < k → oracle j = false) →
      countAttempts (reconnect_attempts oracle wid idx r) = k - idx + 1
      ∧ ∃ pre, reconnect_attempts oracle wid idx r =
          pre ++ [WSEvent.publish wid WorkerStatus.ACTIVE]
  | 0, idx, k, hle, hlt, _, _ => absurd hlt (by omega)
  | r + 1, idx, k, hle, hlt, hk, hfail => by
      by_cases hidx : oracle idx = true
      · have hkidx : k = idx := by
          by_contra hne
          have hik : idx < k := lt_of_le_of_ne hle (fun hh => hne hh.symm)
          have hfalse := hfail idx (le_refl idx) hik
          rw [hfalse] at hidx
          exact Bool.false_ne_true hidx
        subst hkidx
        constructor
        · simp [reconnect_attempts, hidx, connect_to_worker, countAttempts]
        · refine ⟨[WSEvent.connectAttempt wid], ?_⟩
          simp [reconnect_attempts, hidx, connect_to_worker]
      · have hidx2 : oracle idx = false := by
          cases hor : oracle idx
          · rfl
          · exact absurd hor hidx
        have hik : idx < k := by
          rcases Nat.lt_or_ge idx k with hh | hh
          · exact hh
          · have heq : idx = k := le_antisymm hle (by omega)
            rw [heq] at hidx2
            rw [hk] at hidx2
            exact absurd hidx2 (by simp)
        obtain ⟨hc, pre, hpre⟩ :=
          reconnect_attempts_first_success oracle wid r (idx + 1) k
            (by omega) (by omega) hk (fun j hj1 hj2 => hfail j (by omega) hj2)
        constructor
        · simp [reconnect_attempts, hidx2, connect_to_worker, countAttempts,
            List.countP_cons, List.countP_append] at hc ⊢
          omega
        · refine ⟨WSEvent.connectAttempt wid :: WSEvent.sleep reconnect_interval :: pre, ?_⟩
          simp [reconnect_attempts, hidx2, connect_to_worker, hpre]

theorem dispatch_loop_benign (handlers : List (String × Bool)) :
    ∀ msgs : List InboundMsg,
      (∀ c : String, InboundMsg.withCommand c ∈ msgs → c ≠ "" →
          dlookup handlers c ≠ some true) →
      dispatch_loop handlers msgs = (LoopExit.connectionLost, [])
  | [], _ => rfl
  | InboundMsg.malformed :: rest, h => by
      simp only [dispatch_loop]
      exact dispatch_loop_benign handlers rest
        (fun c hc => h c (List.mem_cons_of_mem _ hc))
  | InboundMsg.withCommand c :: rest, h => by
      have hrest := dispatch_loop_benign handlers rest
        (fun c2 hc2 => h c2 (List.mem_cons_of_mem _ hc2))
      by_cases hc : c = ""
      · simp only [dispatch_loop, if_pos hc]
        exact hrest
      · simp only [dispatch_loop, if_neg hc]
        cases hl : dlookup handlers c with
        | none => exact hrest
        | some raises =>
            cases raises with
            | true => exact absurd hl (h c (List.mem_cons_self _ _) hc)
            | false => exact hrest

/-! ### Claim theorems (evaluated statements) -/

/-- Claim C1.  The heartbeat handler does not log-and-drop a report whose
non-negative `workerId` is unknown: `receive_heartbeat` evaluates
`registered_workers[heartbeat.worker_id]` without a membership check, so on
the empty registry a heartbeat carrying `worker_id = 5` raises `KeyError`
instead of returning a soft failure. -/
theorem C1_unknown_worker_id_heartbeat_raises :
    receive_heartbeat initialState hbU 100 = Except.error "KeyError" := by
  rfl

/-- Claim C2.  `_handle_disconnection(worker, reconnect=False)` under the
default `max_reconnect_attempts = 5` nevertheless publishes `RECONNECTING`
and schedules a `_reconnect_worker` retry task — the guard on line 72 tests
only `max_reconnect_attempts > 0` and ignores the `reconnect` argument, so
the worker is not left `INACTIVE` as the specification requires. -/
theorem C2_disconnect_without_reconnect_still_retries :
    handle_disconnection 0 false max_reconnect_attempts =
      [WSEvent.publish 0 WorkerStatus.INACTIVE,
       WSEvent.publish 0 WorkerStatus.INACTIVE,
       WSEvent.publish 0 WorkerStatus.RECONNECTING,
       WSEvent.scheduleReconnect 0]
    ∧ WSEvent.scheduleReconnect 0 ∈ handle_disconnection 0 false max_reconnect_attempts
    ∧ (handle_disconnection 0 false max_reconnect_attempts).getLast? ≠
        some (WSEvent.publish 0 WorkerStatus.INACTIVE) := by
  refine ⟨rfl, ?_, ?_⟩ <;> decide

/-- Claim C8.  A monitor pass over a registry with two stale pending
entries and a stale registration removes only the first stale pending
entry and then dies with `RuntimeError` (the pending dict was mutated
during iteration), leaving the second stale pending entry and the stale
registration unprocessed — the sweep does not continue past the failure. -/
theorem C8_monitor_pass_aborts_on_stale_pending :
    (monitor_pass (fun _ => false) stM 100).error =
      some "RuntimeError: dictionary changed size during iteration"
    ∧ (monitor_pass (fun _ => false) stM 100).state.pending_workers =
        [("B222", hbStaleB)]
    ∧ (monitor_pass (fun _ => false) stM 100).state.registered_workers =
        stM.registered_workers := by
  refine ⟨rfl, rfl, rfl⟩

/-- Claim C3, counterexample.  A successful promotion of the pending serial
`"ABC123"` stores and returns a `Registration` whose status is `ACTIVE`,
not `REGISTERED` as the claim states. -/
theorem C3_counterexample_status_is_ACTIVE :
    (register_worker st1 hbA (-1) true 100).registration.map
        WorkerRegistration.status = some WorkerStatus.ACTIVE
    ∧ (dlookup (register_worker st1 hbA (-1) true 100).state.registered_workers 0).map
        WorkerRegistration.status = some WorkerStatus.ACTIVE
    ∧ WorkerStatus.ACTIVE ≠ WorkerStatus.REGISTERED := by
  refine ⟨rfl, rfl, ?_⟩; decide

/-- Claim C5, counterexample.  An unassigned heartbeat for the serial
`"S777"`, which is held by the existing registration under worker id `0`,
does not leave the registered collection unchanged: the registration is
deleted. -/
theorem C5_counterexample_registration_deleted :
    receive_heartbeat stR hbS 100 = Except.ok stR_after
    ∧ stR_after.registered_workers ≠ stR.registered_workers := by
  refine ⟨rfl, ?_⟩; decide

/-- Claim C6, counterexample.  When the WebSocket connection attempt at
registration time fails, the new `Registration` is *not* left in the
registered collection — `register_worker` returns `False` and discards the
record (whose status field was set to `RECONNECTING` first). -/
theorem C6_counterexample_registration_not_stored :
    (register_worker st1 hbA (-1) false 100).state.registered_workers = []
    ∧ (register_worker st1 hbA (-1) false 100).registration.map
        WorkerRegistration.status = some WorkerStatus.RECONNECTING
    ∧ (register_worker st1 hbA (-1) false 100).success = false := by
  refine ⟨rfl, rfl, rfl⟩

/-- Claim C9, counterexample.  A frame invoking the registered command
`"boom"` whose handler raises terminates the dispatcher's receive loop
(the following malformed frame is never consumed) and the connection is
closed, contradicting the claim that only connection loss ends the loop. -/
theorem C9_counterexample_handler_exception_ends_loop :
    dispatch_loop [("boom", true)]
        [InboundMsg.withCommand "boom", InboundMsg.malformed] =
      (LoopExit.handlerException "boom", [InboundMsg.malformed])
    ∧ (handle_connection [("boom", true)]
        [InboundMsg.withCommand "boom", InboundMsg.malformed]).connection_closed = true := by
  refine ⟨rfl, rfl⟩

/-- Claim C3 (amended).  A successful promotion — `register_worker` with
the default id argument and a succeeding WebSocket connection — creates a
`Registration` whose status field equals `ACTIVE` (not `REGISTERED`),
stores it under the freshly assigned worker id, removes that serial's
pending entry, increments the id counter, and returns a success indicator
(`True`), not the record itself. -/
theorem C3_promotion_creates_active_registration (st : ControllerState)
    (hb : WorkerHeartbeat) (now : Int) (hbp : WorkerHeartbeat)
    (hpend : dlookup st.pending_workers hb.serial = some hbp)
    (hnd : (st.pending_workers.map Prod.fst).Nodup) :
    (register_worker st hb (-1) true now).success = true
    ∧ (register_worker st hb (-1) true now).registration =
        some { serial := hb.serial, hardware_identifier := hb.hardware_identifier,
               control_ip := hb.control_ip_address, data_ip := hb.data_ip_address,
               data_plane := hb.data_plane, timestamp := now,
               status := WorkerStatus.ACTIVE }
    ∧ dlookup (register_worker st hb (-1) true now).state.registered_workers
        st.worker_id_counter = (register_worker st hb (-1) true now).registration
    ∧ dlookup (register_worker st hb (-1) true now).state.pending_workers
        hb.serial = none
    ∧ (register_worker st hb (-1) true now).state.worker_id_counter =
        st.worker_id_counter + 1 := by
  refine ⟨?_, ?_, ?_, ?_, ?_⟩ <;>
    simp [register_worker, hpend, dlookup_dinsert, dlookup_derase_self hnd]

/-- Witness for the amended C3 theorem at the concrete registry `st1`. -/
theorem C3_promotion_witness :
    (register_worker st1 hbA (-1) true 100).success = true
    ∧ (register_worker st1 hbA (-1) true 100).registration =
        some { serial := hbA.serial, hardware_identifier := hbA.hardware_identifier,
               control_ip := hbA.control_ip_address, data_ip := hbA.data_ip_address,
               data_plane := hbA.data_plane, timestamp := 100,
               status := WorkerStatus.ACTIVE }
    ∧ dlookup (register_worker st1 hbA (-1) true 100).state.registered_workers
        st1.worker_id_counter = (register_worker st1 hbA (-1) true 100).registration
    ∧ dlookup (register_worker st1 hbA (-1) true 100).state.pending_workers
        hbA.serial = none
    ∧ (register_worker st1 hbA (-1) true 100).state.worker_id_counter =
        st1.worker_id_counter + 1 :=
  C3_promotion_creates_active_registration st1 hbA 100 hbA rfl (by decide)

/-- Claim C4.  After a disconnection with reconnection allowed:
`RECONNECTING` is published before the retry loop starts; with every
attempt failing the task makes exactly `max_reconnect_attempts = 5`
connect attempts spaced `reconnect_interval = 5` seconds apart and then
publishes the final status `INACTIVE` with no further attempts (the
default-parameter trace is listed literally, and the attempt count and
final `INACTIVE` publication are proved for every attempt bound); when
the first success comes at attempt `k`, the loop stops after `k + 1`
attempts and its trace ends with the `ACTIVE` publication made by the
successful `connect_to_worker`. -/
theorem C4_bounded_retry_procedure (oracle : Nat → Bool) (k : Nat)
    (hk : k < max_reconnect_attempts) (hsucc : oracle k = true)
    (hfail : ∀ j, j < k → oracle j = false) :
    disconnect_with_retry (fun _ => false) 0 max_reconnect_attempts =
      [WSEvent.publish 0 WorkerStatus.INACTIVE,
       WSEvent.publish 0 WorkerStatus.RECONNECTING,
       WSEvent.scheduleReconnect 0,
       WSEvent.connectAttempt 0, WSEvent.sleep reconnect_interval,
       WSEvent.connectAttempt 0, WSEvent.sleep reconnect_interval,
       WSEvent.connectAttempt 0, WSEvent.sleep reconnect_interval,
       WSEvent.connectAttempt 0, WSEvent.sleep reconnect_interval,
       WSEvent.connectAttempt 0, WSEvent.sleep reconnect_interval,
       WSEvent.publish 0 WorkerStatus.INACTIVE]
    ∧ (∀ m : Nat, countAttempts (reconnect_worker (fun _ => false) 0 m) = m
        ∧ ∃ pre, reconnect_worker (fun _ => false) 0 m =
            pre ++ [WSEvent.publish 0 WorkerStatus.INACTIVE])
    ∧ countAttempts (reconnect_worker oracle 0 max_reconnect_attempts) = k + 1
    ∧ ∃ pre, reconnect_worker oracle 0 max_reconnect_attempts =
        pre ++ [WSEvent.publish 0 WorkerStatus.ACTIVE] := by
  obtain ⟨hcnt, pre, hpre⟩ :=
    reconnect_attempts_first_success oracle 0 max_reconnect_attempts 0 k
      (Nat.zero_le k) (by omega) hsucc (fun j _ hj => hfail j hj)
  refine ⟨by decide, ?_, ?_, ⟨pre, hpre⟩⟩
  · intro m
    exact reconnect_attempts_all_fail 0 m 0
  · rw [reconnect_worker, hcnt]
    omega

/-- Witness for the C4 theorem with the oracle succeeding at attempt 2. -/
theorem C4_bounded_retry_witness :
    (2 < max_reconnect_attempts)
    ∧ (disconnect_with_retry (fun _ => false) 0 max_reconnect_attempts =
        [WSEvent.publish 0 WorkerStatus.INACTIVE,
         WSEvent.publish 0 WorkerStatus.RECONNECTING,
         WSEvent.scheduleReconnect 0,
         WSEvent.connectAttempt 0, WSEvent.sleep reconnect_interval,
         WSEvent.connectAttempt 0, WSEvent.sleep reconnect_interval,
         WSEvent.connectAttempt 0, WSEvent.sleep reconnect_interval,
         WSEvent.connectAttempt 0, WSEvent.sleep reconnect_interval,
         WSEvent.connectAttempt 0, WSEvent.sleep reconnect_interval,
         WSEvent.publish 0 WorkerStatus.INACTIVE]
      ∧ (∀ m : Nat, countAttempts (reconnect_worker (fun _ => false) 0 m) = m
          ∧ ∃ pre, reconnect_worker (fun _ => false) 0 m =
              pre ++ [WSEvent.publish 0 WorkerStatus.INACTIVE])
      ∧ countAttempts (reconnect_worker (fun i => decide (i = 2)) 0
          max_reconnect_attempts) = 2 + 1
      ∧ ∃ pre, reconnect_worker (fun i => decide (i = 2)) 0 max_reconnect_attempts =
          pre ++ [WSEvent.publish 0 WorkerStatus.ACTIVE]) :=
  ⟨by decide,
    C4_bounded_retry_procedure (fun i => decide (i = 2)) 2 (by decide) (by decide)
      (by decide)⟩

/-- Claim C5 (amended).  A heartbeat with `workerId = -1` whose serial is
already a pending key only bumps that entry's timestamp and leaves the
registered collection unchanged; but when the serial is new to the pending
collection, the handler appends the pending entry and deletes the first
registration carrying the same serial, if one exists (so re-pending a
previously registered serial removes its registration rather than leaving
the registered collection untouched). -/
theorem C5_unassigned_heartbeat_registered_effect (st st' : ControllerState)
    (hb : WorkerHeartbeat) (now : Int) (hwid : hb.worker_id = -1)
    (hok : receive_heartbeat st hb now = Except.ok st') :
    ((dlookup st.pending_workers hb.serial).isSome →
        st'.registered_workers = st.registered_workers)
    ∧ (dlookup st.pending_workers hb.serial = none →
        dlookup st'.pending_workers hb.serial = some { hb with timestamp := now }
        ∧ (∀ e, st.registered_workers.find? (fun q => q.2.serial = hb.serial) = some e →
            st'.registered_workers = derase st.registered_workers e.1)
        ∧ (st.registered_workers.find? (fun q => q.2.serial = hb.serial) = none →
            st'.registered_workers = st.registered_workers)) := by
  unfold receive_heartbeat at hok
  rw [if_pos hwid] at hok
  split at hok
  next old hpl =>
    injection hok with hok
    subst hok
    refine ⟨fun _ => rfl, fun hcontra => ?_⟩
    exact Option.noConfusion (hpl.symm.trans hcontra)
  next hpl =>
    constructor
    · intro hcontra
      simp [hpl] at hcontra
    · intro _
      split at hok
      next e hfind =>
        injection hok with hok
        subst hok
        refine ⟨dlookup_append_single hpl, ?_, ?_⟩
        · intro e2 hfind2
          have he := hfind.symm.trans hfind2
          injection he with he
          subst he
          rfl
        · intro hfind2
          exact Option.noConfusion (hfind.symm.trans hfind2)
      next hfind =>
        injection hok with hok
        subst hok
        refine ⟨dlookup_append_single hpl, ?_, fun _ => rfl⟩
        intro e2 hfind2
        exact Option.noConfusion (hfind.symm.trans hfind2)

/-- Witness for the amended C5 theorem at the concrete registry `stR`. -/
theorem C5_unassigned_heartbeat_witness :
    ((dlookup stR.pending_workers hbS.serial).isSome →
        stR_after.registered_workers = stR.registered_workers)
    ∧ (dlookup stR.pending_workers hbS.serial = none →
        dlookup stR_after.pending_workers hbS.serial = some { hbS with timestamp := 100 }
        ∧ (∀ e, stR.registered_workers.find? (fun q => q.2.serial = hbS.serial) = some e →
            stR_after.registered_workers = derase stR.registered_workers e.1)
        ∧ (stR.registered_workers.find? (fun q => q.2.serial = hbS.serial) = none →
            stR_after.registered_workers = stR.registered_workers)) :=
  C5_unassigned_heartbeat_registered_effect stR stR_after hbS 100 rfl rfl

/-- Claim C6 (amended).  When the WebSocket connection attempt at
registration time fails, the `Registration` record is given
`status = RECONNECTING` but is *not* added to the registered collection:
`register_worker` returns `False`, both registry maps are unchanged (only
the id counter has advanced), and the failed `connect_to_worker` call
itself publishes no status change and returns `False`. -/
theorem C6_registration_connect_failure (st : ControllerState)
    (hb : WorkerHeartbeat) (now : Int) (hbp : WorkerHeartbeat)
    (hpend : dlookup st.pending_workers hb.serial = some hbp) :
    (register_worker st hb (-1) false now).success = false
    ∧ (register_worker st hb (-1) false now).state.registered_workers =
        st.registered_workers
    ∧ (register_worker st hb (-1) false now).state.pending_workers =
        st.pending_workers
    ∧ (register_worker st hb (-1) false now).registration.map
        WorkerRegistration.status = some WorkerStatus.RECONNECTING
    ∧ (connect_to_worker st.worker_id_counter false).2 = false
    ∧ ∀ s : WorkerStatus,
        WSEvent.publish st.worker_id_counter s ∉
          (connect_to_worker st.worker_id_counter false).1 := by
  simp only [register_worker, hpend]
  refine ⟨rfl, rfl, rfl, rfl, rfl, ?_⟩
  intro s hmem
  simp [connect_to_worker] at hmem

/-- Witness for the amended C6 theorem at the concrete registry `st1`. -/
theorem C6_registration_connect_failure_witness :
    (register_worker st1 hbA (-1) false 100).success = false
    ∧ (register_worker st1 hbA (-1) false 100).state.registered_workers =
        st1.registered_workers
    ∧ (register_worker st1 hbA (-1) false 100).state.pending_workers =
        st1.pending_workers
    ∧ (register_worker st1 hbA (-1) false 100).registration.map
        WorkerRegistration.status = some WorkerStatus.RECONNECTING
    ∧ (connect_to_worker st1.worker_id_counter false).2 = false
    ∧ ∀ s : WorkerStatus,
        WSEvent.publish st1.worker_id_counter s ∉
          (connect_to_worker st1.worker_id_counter false).1 :=
  C6_registration_connect_failure st1 hbA 100 hbA rfl

/-- Claim C7.  In every registry state reachable by any sequence of
heartbeat-ingest, promotion, liveness-monitor and status-callback
operations, a given serial occurs (as a pending key, the serial field of a
pending heartbeat, or the serial field of a registration) in at most one
of the pending and registered collections, never in both at once. -/
theorem C7_serial_in_at_most_one_collection (st : ControllerState)
    (h : Reachable st) (s : String) :
    ¬(pendingHasSerial st s ∧ registeredHasSerial st s) := by
  rintro ⟨⟨p, hp, hps⟩, q, hq, hqs⟩
  have hwf := reachable_wf h
  have hkey : p.1 = s := by
    rcases hps with hps | hps
    · exact hps
    · rw [← hwf.pending_serial_eq_key p hp]
      exact hps
  exact hwf.disjoint q hq p hp (by rw [hqs, hkey])

/-- Witness for the C7 invariant at the reachable state `st1` (one
heartbeat into the run). -/
theorem C7_serial_disjointness_witness :
    ¬(pendingHasSerial st1 "S777" ∧ registeredHasSerial st1 "S777") :=
  C7_serial_in_at_most_one_collection st1
    (Reachable.heartbeat hbA 50 Reachable.init rfl) "S777"

/-- Claim C9 (amended).  Malformed frames, empty commands and unregistered
commands never terminate the dispatcher's receive loop — a message list
none of whose frames reaches a raising handler is consumed in full and the
loop ends only by connection loss — but an exception raised by an invoked
registered handler *does* end the receive loop (it is caught by the outer
handler, so the dispatcher itself does not propagate it) and the
connection is then closed; in every case the single-slot handle is
cleared, leaving the worker ready for a new inbound connection. -/
theorem C9_dispatcher_loop_behavior (handlers : List (String × Bool))
    (msgs rest : List InboundMsg) (cmd : String)
    (hbenign : ∀ c : String, InboundMsg.withCommand c ∈ msgs → c ≠ "" →
        dlookup handlers c ≠ some true)
    (hcmd : cmd ≠ "") (hraise : dlookup handlers cmd = some true) :
    dispatch_loop handlers msgs = (LoopExit.connectionLost, [])
    ∧ dispatch_loop handlers (InboundMsg.withCommand cmd :: rest) =
        (LoopExit.handlerException cmd, rest)
    ∧ (handle_connection handlers msgs).slot_after = none
    ∧ (handle_connection handlers (InboundMsg.withCommand cmd :: rest)).slot_after = none
    ∧ (handle_connection handlers (InboundMsg.withCommand cmd :: rest)).connection_closed
        = true := by
  refine ⟨dispatch_loop_benign handlers msgs hbenign, ?_, rfl, rfl, rfl⟩
  simp [dispatch_loop, hcmd, hraise]

/-- Witness for the amended C9 theorem: benign traffic (malformed frame,
empty command, unknown command, well-behaved handler) is consumed in full,
and the raising handler of `"boom"` ends the loop. -/
theorem C9_dispatcher_loop_witness :
    dispatch_loop [("ok", false), ("boom", true)]
        [InboundMsg.malformed, InboundMsg.withCommand "",
         InboundMsg.withCommand "nope", InboundMsg.withCommand "ok"] =
      (LoopExit.connectionLost, [])
    ∧ dispatch_loop [("ok", false), ("boom", true)]
        (InboundMsg.withCommand "boom" :: [InboundMsg.malformed]) =
        (LoopExit.handlerException "boom", [InboundMsg.malformed])
    ∧ (handle_connection [("ok", false), ("boom", true)]
        [InboundMsg.malformed, InboundMsg.withCommand "",
         InboundMsg.withCommand "nope", InboundMsg.withCommand "ok"]).slot_after = none
    ∧ (handle_connection [("ok", false), ("boom", true)]
        (InboundMsg.withCommand "boom" :: [InboundMsg.malformed])).slot_after = none
    ∧ (handle_connection [("ok", false), ("boom", true)]
        (InboundMsg.withCommand "boom" :: [InboundMsg.malformed])).connection_closed
        = true :=
  C9_dispatcher_loop_behavior [("ok", false), ("boom", true)]
    [InboundMsg.malformed, InboundMsg.withCommand "",
     InboundMsg.withCommand "nope", InboundMsg.withCommand "ok"]
    [InboundMsg.malformed] "boom"
    (by
      intro c hc hne
      simp only [List.mem_cons, List.not_mem_nil, or_false] at hc
      rcases hc with hc | hc | hc | hc <;> cases hc <;> decide)
    (by decide) (by decide)

/-- Claim C10.  The `finally` cleanup of `handle_connection` stores `None`
into the single-slot holder whatever the slot currently contains — in
particular, after a second connection (`2`) has silently replaced the
first (`1`), the first handler's termination clears the second
connection's handle as well. -/
theorem C10_cleanup_clears_slot_unconditionally :
    (∀ (slot : Option Nat) (c : Nat), slot_step slot (SlotOp.finish c) = none)
    ∧ slot_run none [SlotOp.start 1, SlotOp.start 2, SlotOp.finish 1] = none
    ∧ slot_run none [SlotOp.start 1, SlotOp.start 2, SlotOp.finish 1] ≠ some 2 := by
  refine ⟨fun slot c => rfl, rfl, ?_⟩; decide

end FypCluster
